import Mathlib

/-!
Verification development for the auto-issue-resolver repository.

Shallow embedding of the TypeScript sources:
  * `packages/core/src/types/result.ts`  — the `Result` type
  * `packages/agent/src/agent/report.ts` — structured-report parsing / report building
  * `packages/agent/src/agent/runner.ts` — the agent run protocol
  * `packages/mcp-e2b/src/sandbox/*`     — sandbox manager, file, command and git ops
  * `packages/mcp-e2b/src/tools.ts`      — the tool-catalogue boundary
  * the GitHub issue-URL parser

Remote effects (the E2B sandbox, the LLM stream) are modelled as explicit
environment parameters: each remote call's outcome is an `Except` value
supplied from outside (`Except.error` models a thrown exception).
JavaScript numbers that only flow through the code are modelled as `Nat`
or `Int`; JSON numbers keep their source lexeme as a `String`.
-/

namespace AIR

/-- `Result<T, E>` from `core/src/types/result.ts` (discriminated union on `ok`). -/
inductive Result (ε α : Type) : Type
  | ok (value : α) : Result ε α
  | err (error : ε) : Result ε α
deriving Repr, DecidableEq

def Result.isOk {ε α : Type} : Result ε α → Bool
  | .ok _ => true
  | .err _ => false

/-- The `SandboxError` family from `core/src/errors/sandbox.ts`:
generic operation failure, timeout, and not-initialized. -/
inductive SandboxErr : Type
  | generic (operation : String) (msg : String)
  | timeout (operation : String) (timeoutMs : Nat)
  | notInitialized
deriving Repr, DecidableEq

/-- The message text carried by a `SandboxError` (`Sandbox ${operation}: ${message}`). -/
def SandboxErr.message : SandboxErr → String
  | .generic op m => "Sandbox " ++ op ++ ": " ++ m
  | .timeout op ms => "Sandbox " ++ op ++ ": Timed out after " ++ toString ms ++ "ms"
  | .notInitialized => "Sandbox access: Sandbox not initialized. Call clone first."

/-- `CommandResult` from `core/src/types/sandbox.ts`. -/
structure CommandResult : Type where
  stdout : String
  stderr : String
  exitCode : Int
deriving Repr, DecidableEq

/-! ## JSON values

`JSON.parse` is modelled by an executable recursive-descent parser over the
character list, mirroring the ECMAScript JSON grammar.  Numbers keep their
lexeme; object fields keep their textual order (lookup takes the last
binding, as JavaScript object construction overwrites earlier keys). -/

inductive Json : Type
  | null : Json
  | bool (b : Bool) : Json
  | num (lexeme : String) : Json
  | str (s : String) : Json
  | arr (elems : List Json) : Json
  | obj (fields : List (String × Json)) : Json
deriving Repr

/-- Brace characters, by code point. -/
def lbrace : Char := Char.ofNat 123

def rbrace : Char := Char.ofNat 125

def isJsonWs (c : Char) : Bool :=
  c = ' ' || c = '\t' || c = '\n' || c = '\r'

def skipWs (cs : List Char) : List Char :=
  cs.dropWhile isJsonWs

def listStartsWith : List Char → List Char → Bool
  | _, [] => true
  | [], _ :: _ => false
  | c :: cs, p :: ps => c = p && listStartsWith cs ps

/-- Index of the first occurrence of `pat` in `cs` (substring search). -/
def findSubstrPos : List Char → List Char → Option Nat
  | cs, pat =>
    match cs with
    | [] => if pat = [] then some 0 else none
    | _ :: rest =>
      if listStartsWith cs pat then some 0
      else (findSubstrPos rest pat).map (· + 1)

/-- `s.includes(pat)`. -/
def strContains (s pat : String) : Bool :=
  (findSubstrPos s.data pat.data).isSome

/-- `s.startsWith(pre)` (executable down to the kernel, unlike the
byte-position built-in). -/
def strStartsWith (s pre : String) : Bool :=
  listStartsWith s.data pre.data

/-- `s.split(sep)` for a non-empty separator, fuelled by the input length
(one character is consumed per step). -/
def splitOnFuel (sep : List Char) : Nat → List Char → List Char → List (List Char)
  | 0, cs, acc => [acc.reverse ++ cs]
  | _ + 1, [], acc => [acc.reverse]
  | fuel + 1, c :: rest, acc =>
    if sep ≠ [] && listStartsWith (c :: rest) sep then
      acc.reverse :: splitOnFuel sep fuel (List.drop sep.length (c :: rest)) []
    else splitOnFuel sep fuel rest (c :: acc)

/-- JavaScript `String.prototype.split` with a non-empty separator (all the
separators this code base passes are non-empty). -/
def strSplitOn (s sep : String) : List String :=
  if sep = "" then [s]
  else (splitOnFuel sep.data (s.length + 1) s.data []).map String.mk

def trimTrailingWs (cs : List Char) : List Char :=
  (cs.reverse.dropWhile isJsonWs).reverse

/-- `s.trim()` (whitespace approximated by the JSON whitespace set). -/
def strTrim (s : String) : String :=
  String.mk (trimTrailingWs (s.data.dropWhile isJsonWs))

def isHexDigit (c : Char) : Bool :=
  (('0' ≤ c && c ≤ '9') || ('a' ≤ c && c ≤ 'f') || ('A' ≤ c && c ≤ 'F'))

def hexVal (c : Char) : Nat :=
  if '0' ≤ c && c ≤ '9' then c.toNat - '0'.toNat
  else if 'a' ≤ c && c ≤ 'f' then c.toNat - 'a'.toNat + 10
  else if 'A' ≤ c && c ≤ 'F' then c.toNat - 'A'.toNat + 10
  else 0

/-- Parse one JSON string body (after the opening quote). Handles the JSON
escapes; a `\uXXXX` escape becomes the character of that code point
(invalid scalar values collapse to the null character via `Char.ofNat`). -/
def parseStringBody : List Char → List Char → Option (String × List Char)
  | acc, c :: rest =>
    if c = '"' then some (String.mk acc.reverse, rest)
    else if c = '\\' then
      match rest with
      | '"' :: r => parseStringBody ('"' :: acc) r
      | '\\' :: r => parseStringBody ('\\' :: acc) r
      | '/' :: r => parseStringBody ('/' :: acc) r
      | 'b' :: r => parseStringBody (Char.ofNat 8 :: acc) r
      | 'f' :: r => parseStringBody (Char.ofNat 12 :: acc) r
      | 'n' :: r => parseStringBody ('\n' :: acc) r
      | 'r' :: r => parseStringBody (Char.ofNat 13 :: acc) r
      | 't' :: r => parseStringBody ('\t' :: acc) r
      | 'u' :: h1 :: h2 :: h3 :: h4 :: r =>
        if isHexDigit h1 && isHexDigit h2 && isHexDigit h3 && isHexDigit h4 then
          parseStringBody
            (Char.ofNat (((hexVal h1 * 16 + hexVal h2) * 16 + hexVal h3) * 16 + hexVal h4) :: acc) r
        else none
      | _ => none
    else if c.toNat < 32 then none
    else parseStringBody (c :: acc) rest
  | _, [] => none

def isDigit (c : Char) : Bool :=
  '0' ≤ c && c ≤ '9'

/-- Lex a JSON number at the head of the input; returns the lexeme. -/
def lexNumber (cs : List Char) : Option (String × List Char) :=
  let (sign, afterSign) :=
    match cs with
    | '-' :: r => ([('-' : Char)], r)
    | _ => ([], cs)
  let intPart := afterSign.takeWhile isDigit
  let afterInt := afterSign.dropWhile isDigit
  if intPart = [] then none
  else if intPart.length > 1 && intPart.headD '0' = '0' then none
  else
    let (fracPart, afterFrac) :=
      match afterInt with
      | '.' :: r =>
        let ds := r.takeWhile isDigit
        if ds = [] then ([], afterInt) else ('.' :: ds, r.dropWhile isDigit)
      | _ => ([], afterInt)
    if afterInt ≠ afterFrac || fracPart = [] then
      match afterInt, fracPart with
      | '.' :: _, [] => none
      | _, _ =>
        let (expPart, afterExp) :=
          match afterFrac with
          | e :: r =>
            if e = 'e' || e = 'E' then
              match r with
              | s :: r2 =>
                if s = '+' || s = '-' then
                  let ds := r2.takeWhile isDigit
                  if ds = [] then ([], afterFrac)
                  else (e :: s :: ds, r2.dropWhile isDigit)
                else
                  let ds := r.takeWhile isDigit
                  if ds = [] then ([], afterFrac)
                  else (e :: ds, r.dropWhile isDigit)
              | [] => ([], afterFrac)
            else ([], afterFrac)
          | [] => ([], afterFrac)
        some (String.mk (sign ++ intPart ++ fracPart ++ expPart), afterExp)
    else none

mutual

/-- Parse one JSON value (fuelled recursion; fuel bounds nesting depth). -/
def parseValue : Nat → List Char → Option (Json × List Char)
  | 0, _ => none
  | _ + 1, [] => none
  | fuel + 1, c :: rest =>
    if c = '"' then
      match parseStringBody [] rest with
      | some (s, r) => some (.str s, r)
      | none => none
    else if c = lbrace then parseObjFields fuel (skipWs rest) true
    else if c = '[' then parseArrElems fuel (skipWs rest) true
    else if c = 't' then
      match rest with
      | 'r' :: 'u' :: 'e' :: r => some (.bool true, r)
      | _ => none
    else if c = 'f' then
      match rest with
      | 'a' :: 'l' :: 's' :: 'e' :: r => some (.bool false, r)
      | _ => none
    else if c = 'n' then
      match rest with
      | 'u' :: 'l' :: 'l' :: r => some (.null, r)
      | _ => none
    else
      match lexNumber (c :: rest) with
      | some (lex, r) => some (.num lex, r)
      | none => none

/-- Parse object fields after `{` (whitespace already skipped);
`first` is true before any field has been read. -/
def parseObjFields : Nat → List Char → Bool → Option (Json × List Char)
  | 0, _, _ => none
  | _ + 1, [], _ => none
  | fuel + 1, c :: rest, first =>
    if first && c = rbrace then some (.obj [], rest)
    else if c = '"' then
      match parseStringBody [] rest with
      | none => none
      | some (key, afterKey) =>
        match skipWs afterKey with
        | ':' :: afterColon =>
          match parseValue fuel (skipWs afterColon) with
          | none => none
          | some (v, afterVal) =>
            match skipWs afterVal with
            | ',' :: afterComma =>
              match parseObjFields fuel (skipWs afterComma) false with
              | some (.obj fields, r) => some (.obj ((key, v) :: fields), r)
              | _ => none
            | r2 =>
              match r2 with
              | c2 :: r3 => if c2 = rbrace then some (.obj [(key, v)], r3) else none
              | [] => none
        | _ => none
    else none

/-- Parse array elements after `[` (whitespace already skipped). -/
def parseArrElems : Nat → List Char → Bool → Option (Json × List Char)
  | 0, _, _ => none
  | _ + 1, [], _ => none
  | fuel + 1, c :: rest, first =>
    if first && c = ']' then some (.arr [], rest)
    else
      match parseValue fuel (c :: rest) with
      | none => none
      | some (v, afterVal) =>
        match skipWs afterVal with
        | ',' :: afterComma =>
          match parseArrElems fuel (skipWs afterComma) false with
          | some (.arr elems, r) => some (.arr (v :: elems), r)
          | _ => none
        | ']' :: r => some (.arr [v], r)
        | _ => none

end

/-- `JSON.parse`: a full-string parse (only whitespace may follow the value). -/
def jsonParse (s : String) : Option Json :=
  let cs := skipWs s.data
  match parseValue (s.length + 1) cs with
  | some (v, rest) => if skipWs rest = [] then some v else none
  | none => none

/-- Property lookup on a JSON value, as JavaScript property access:
`none` models `undefined` (missing key or non-object receiver).
The last binding of a duplicated key wins. -/
def jget (j : Json) (key : String) : Option Json :=
  match j with
  | .obj fields => (fields.reverse.find? (fun kv => kv.1 = key)).map (·.2)
  | _ => none

/-- `key in value`: JavaScript `in` on the parsed value. -/
def jhas (j : Json) (key : String) : Bool :=
  (jget j key).isSome

/-- Whether a JSON number lexeme denotes zero (`0`, `-0`, `0.00`, `0e9`, …). -/
def numIsZero (lexeme : String) : Bool :=
  let noSign := if strStartsWith lexeme "-" then lexeme.drop 1 else lexeme
  let mantissa := ((strSplitOn ((strSplitOn noSign "e").headD "") "E").headD "")
  (mantissa.data.filter (fun c => c ≠ '.')).all (fun c => c = '0')

/-- JavaScript truthiness of a JSON value. -/
def jsTruthy : Json → Bool
  | .null => false
  | .bool b => b
  | .num lex => !numIsZero lex
  | .str s => s ≠ ""
  | .arr _ => true
  | .obj _ => true

/-- Truthiness of an optional JSON value (`none` models `undefined`). -/
def jsTruthyOpt : Option Json → Bool
  | none => false
  | some j => jsTruthy j

/-- Nullish coalescing `x ?? d` on a JavaScript value. -/
def nullish (v : Option Json) (d : Json) : Json :=
  match v with
  | none => d
  | some .null => d
  | some j => j

/-! ## Report parsing (`packages/agent/src/agent/report.ts`)

`parseStructuredReport` tries, in order: a ```` ```json ```` fenced block, a
bare fenced block that parses to an object with a `status` key, and a raw
brace-delimited object located by the `status`-field pattern and closed by
brace-depth counting. -/

/-- The fenced-block regexes `/```json\s*([\s\S]*?)\s*```/` and
`/```\s*([\s\S]*?)\s*```/`: locate the first ```` ``` ````+tag opener, skip
whitespace greedily, and capture lazily up to the next ```` ``` ````
(trailing whitespace before the closing fence belongs to `\s*`, not to the
capture). Returns the captured group, `none` when the regex does not match. -/
def extractFenced (text : String) (tag : String) : Option String :=
  let cs := text.data
  let openPat := ("```" ++ tag).data
  match findSubstrPos cs openPat with
  | none => none
  | some p =>
    let body := skipWs (cs.drop (p + openPat.length))
    match findSubstrPos body ("```".data) with
    | none => none
    | some q => some (String.mk (trimTrailingWs (body.take q)))

/-- Does `"status"\s*:\s*"[^"]+"` match at the head of `cs`? -/
def statusPatAt (cs : List Char) : Bool :=
  if listStartsWith cs ("\"status\"".data) then
    match skipWs (cs.drop 8) with
    | ':' :: r2 =>
      match skipWs r2 with
      | '"' :: r3 =>
        r3.takeWhile (fun c => c ≠ '"') ≠ [] && r3.dropWhile (fun c => c ≠ '"') ≠ []
      | _ => false
    | _ => false
  else false

def hasStatusPat : List Char → Bool
  | [] => false
  | cs@(_ :: rest) => statusPatAt cs || hasStatusPat rest

/-- Start index of the leftmost match of `/\{[\s\S]*"status"\s*:\s*"[^"]+"/`:
the first `{` that is followed somewhere by the `status`-field pattern
(`text.indexOf(match[0])` re-finds exactly this leftmost position). -/
def findRawStart : List Char → Option Nat
  | [] => none
  | c :: rest =>
    if c = lbrace && hasStatusPat rest then some 0
    else (findRawStart rest).map (· + 1)

/-- The brace-counting loop of `parseStructuredReport`: starting at index `i`
with running count `depth`, bump the count on `{`, drop it on `}`, and stop
with `endIdx = i + 1` as soon as the count reaches zero. `none` when the
count never returns to zero (the source then leaves `endIdx = startIdx`). -/
def braceScan : List Char → Int → Nat → Option Nat
  | [], _, _ => none
  | c :: rest, depth, i =>
    let d := if c = lbrace then depth + 1 else if c = rbrace then depth - 1 else depth
    if d = 0 then some (i + 1) else braceScan rest d (i + 1)

/-- The third branch of `parseStructuredReport`: raw JSON object in the text. -/
def rawBraceBranch (text : String) : Option Json :=
  let cs := text.data
  match findRawStart cs with
  | none => none
  | some startIdx =>
    match braceScan (cs.drop startIdx) 0 startIdx with
    | none => none
    | some endIdx =>
      if startIdx < endIdx then
        jsonParse (String.mk ((cs.drop startIdx).take (endIdx - startIdx)))
      else none

/-- `typeof parsed === "object" && parsed !== null && "status" in parsed`
(arrays are `typeof "object"` but have no `status` key). -/
def isObjWithStatus : Json → Bool
  | .obj fields => fields.any (fun kv => kv.1 = "status")
  | _ => false

/-- `parseStructuredReport` from `report.ts`. The result is the parsed JSON
value (the source casts it unchecked to `LLMReport`); `none` models `null`
by fall-through. Note that an empty capture group is falsy in JavaScript, so
an empty fenced block is skipped. -/
def parseStructuredReport (text : String) : Option Json :=
  let branchA :=
    match extractFenced text "json" with
    | some captured => if captured ≠ "" then jsonParse captured else none
    | none => none
  match branchA with
  | some v => some v
  | none =>
    let branchB :=
      match extractFenced text "" with
      | some captured =>
        if captured ≠ "" then
          match jsonParse captured with
          | some v => if isObjWithStatus v then some v else none
          | none => none
        else none
      | none => none
    match branchB with
    | some v => some v
    | none => rawBraceBranch text

/-! ## Report building -/

/-- `AgentStatus` from `core/src/types/agent.ts`. The `summary` and extra
fields hold whatever JSON value the unchecked cast propagated
(`Option` models a possibly-`undefined` summary; the source's `partial`
variant is spelled `partialStatus`, `partial` being a Lean keyword). -/
inductive AgentStatus : Type
  | solved (summary : Option Json) (fixDescription : Json)
  | already_fixed (summary : Option Json) (fixingCommit : Json)
  | partialStatus (summary : Option Json) (remainingWork : Json)
  | needs_human (summary : Option Json) (blockers : Json)
  | failed (summary : Option Json) (error : Json)
deriving Repr

/-- `buildStatusFromParsed` from `report.ts`. A `status` value outside the
five tags falls through the `switch`, producing `undefined` (`none`). -/
def buildStatusFromParsed (parsed : Json) : Option AgentStatus :=
  match jget parsed "status" with
  | some (.str "solved") =>
    some (.solved (jget parsed "summary")
      (nullish (jget parsed "fixDescription") (.str "Fix applied")))
  | some (.str "already_fixed") =>
    some (.already_fixed (jget parsed "summary")
      (nullish (jget parsed "fixingCommit") (.str "unknown")))
  | some (.str "partial") =>
    some (.partialStatus (jget parsed "summary")
      (nullish (jget parsed "remainingWork") (.str "Additional work needed")))
  | some (.str "needs_human") =>
    some (.needs_human (jget parsed "summary")
      (nullish (jget parsed "blockers") (.arr [.str "Human review required"])))
  | some (.str "failed") =>
    some (.failed (jget parsed "summary")
      (nullish (jget parsed "error") (.str "Agent failed")))
  | _ => none

structure GitHubIssue : Type where
  number : Nat
deriving Repr, DecidableEq

structure GitHubRepo : Type where
  owner : String
  name : String
deriving Repr, DecidableEq

/-- The fields of an `SDKResultMessage` the runner reads: `result` (present
only on the success subtype), `is_error`, and `total_cost_usd` (an abstract
numeric here). -/
structure ResultMsg : Type where
  resultText : Option String
  isError : Bool
  totalCostUsd : Nat
deriving Repr

structure FileChange : Type where
  path : Json
  diff : String
deriving Repr

structure AgentReport : Type where
  issue : GitHubIssue
  repo : GitHubRepo
  status : Option AgentStatus
  reproduced : Option Json
  rootCause : Json
  analysis : String
  changes : List FileChange
  sandboxUrl : Option String
  turnsUsed : Nat
  durationMs : Nat
  costUsd : Nat
deriving Repr

def jsArray : Json → Option (List Json)
  | .arr xs => some xs
  | _ => none

/-- `buildReport` from `report.ts`. Returns `none` only when
`(parsed.filesChanged ?? []).map(...)` is applied to a truthy non-array
value — a `TypeError` the source does not catch. -/
def buildReport (issue : GitHubIssue) (repo : GitHubRepo) (result : Option ResultMsg)
    (turns : Nat) (durationMs : Nat) (costUsd : Nat) (sandboxUrl : Option String) :
    Option AgentReport :=
  let resultText :=
    match result with
    | some r => r.resultText.getD ""
    | none => ""
  let isError := (result.map (·.isError)).getD false
  let fallbackStatus : AgentStatus :=
    if isError then
      .failed (some (.str (resultText.take 500))) (.str "Agent error")
    else
      .needs_human (some (.str (resultText.take 500)))
        (.arr [.str "Could not parse structured output"])
  let fallback : AgentReport :=
    { issue := issue, repo := repo, status := some fallbackStatus,
      reproduced := some (.bool false), rootCause := .null, analysis := resultText,
      changes := [], sandboxUrl := sandboxUrl, turnsUsed := turns,
      durationMs := durationMs, costUsd := costUsd }
  match parseStructuredReport resultText with
  | some parsed =>
    if jsTruthy parsed then
      match jsArray (nullish (jget parsed "filesChanged") (.arr [])) with
      | none => none
      | some files =>
        some { issue := issue, repo := repo,
               status := buildStatusFromParsed parsed,
               reproduced := jget parsed "reproduced",
               rootCause := nullish (jget parsed "rootCause") .null,
               analysis := resultText,
               changes := files.map (fun p => { path := p, diff := "" }),
               sandboxUrl := sandboxUrl, turnsUsed := turns,
               durationMs := durationMs, costUsd := costUsd }
    else some fallback
  | none => some fallback

/-! ## Sandbox lifecycle (`packages/mcp-e2b/src/sandbox/manager.ts`)

The remote sandbox handle is modelled by a numeric id; every remote call's
outcome is supplied by an environment parameter (`Except.error` = thrown). -/

structure SandboxConfig : Type where
  apiKey : String
  timeoutMs : Nat
  githubToken : Option String
  templateName : Option String
  enablePlaywright : Bool
deriving Repr, DecidableEq

/-- The mutable fields of `SandboxManager`. -/
structure SandboxState : Type where
  sandbox : Option Nat
  repoPath : Option String
  startedAt : Option Nat
  mcpUrl : Option String
  mcpToken : Option String
deriving Repr, DecidableEq

/-- The state a fresh manager starts in: every field `null`. -/
def emptySession : SandboxState :=
  { sandbox := none, repoPath := none, startedAt := none, mcpUrl := none, mcpToken := none }

structure SandboxInfo : Type where
  id : Nat
  repoPath : Option String
  startedAt : Nat
deriving Repr, DecidableEq

/-- What a successful `Sandbox.create` hands back (the MCP fields are read
only in the gateway branch). -/
structure InitData : Type where
  id : Nat
  mcpUrl : String
  mcpToken : Option String
deriving Repr, DecidableEq

/-- `SandboxManager.initialize`. `hasMcp` is exactly `enablePlaywright`
(the only server ever put into `mcpConfig`). -/
def initializeSandbox (cfg : SandboxConfig) (st : SandboxState)
    (createOutcome : Except String InitData) (now : Nat) :
    Result SandboxErr SandboxInfo × SandboxState :=
  match createOutcome with
  | .error m => (.err (.generic "initialize" m), st)
  | .ok d =>
    let st' :=
      if cfg.enablePlaywright then
        { st with sandbox := some d.id, startedAt := some now,
                  mcpUrl := some d.mcpUrl, mcpToken := d.mcpToken }
      else
        { st with sandbox := some d.id, startedAt := some now }
    (.ok { id := d.id, repoPath := none, startedAt := now }, st')

/-- `SandboxManager.cleanup`. The remote `kill()` outcome is swallowed by
`try/catch` (the function never raises) and the fields are nulled only when
a sandbox handle is present. -/
def cleanup (st : SandboxState) (_killOutcome : Except String Unit) : SandboxState :=
  if st.sandbox.isSome then emptySession else st

def isInitialized (st : SandboxState) : Bool :=
  st.sandbox.isSome

def hasMcpGateway (st : SandboxState) : Bool :=
  st.mcpUrl.isSome && st.mcpToken.isSome

/-- `getHostUrl`; `hostFn` abstracts the provider's `sandbox.getHost(port)`. -/
def getHostUrl (st : SandboxState) (hostFn : Nat → Nat → String) (port : Nat) : Option String :=
  st.sandbox.map (fun h => "https://" ++ hostFn h port)

/-- `resolvePath`: absolute paths pass through; relative paths are anchored
to the repo path when set, else to `/home/user`. -/
def resolvePath (st : SandboxState) (path : String) : String :=
  if strStartsWith path "/" then path
  else
    match st.repoPath with
    | some rp => rp ++ "/" ++ path
    | none => "/home/user/" ++ path

/-! ## File operations (`packages/mcp-e2b/src/sandbox/files.ts`) -/

def readFile (st : SandboxState) (env : String → Except String String) (path : String) :
    Result SandboxErr String :=
  match st.sandbox with
  | none => .err .notInitialized
  | some _ =>
    match env (resolvePath st path) with
    | .ok content => .ok content
    | .error m => .err (.generic "read file" m)

def writeFile (st : SandboxState) (env : String → String → Except String Unit)
    (path : String) (content : String) : Result SandboxErr Unit :=
  match st.sandbox with
  | none => .err .notInitialized
  | some _ =>
    match env (resolvePath st path) content with
    | .ok _ => .ok ()
    | .error m => .err (.generic "write file" m)

def listDirectory (st : SandboxState) (env : String → Except String CommandResult)
    (path : Option String) : Result SandboxErr (List String) :=
  match st.sandbox with
  | none => .err .notInitialized
  | some _ =>
    let fullPath :=
      match path with
      | some p => resolvePath st p
      | none => st.repoPath.getD "/home/user"
    match env ("ls -1 \"" ++ fullPath ++ "\"") with
    | .error m => .err (.generic "list directory" m)
    | .ok res =>
      if res.exitCode ≠ 0 then .err (.generic "list directory" res.stderr)
      else .ok ((strSplitOn res.stdout "\n").filter (fun l => l ≠ ""))

def searchFiles (st : SandboxState) (env : String → Except String CommandResult)
    (pat : String) (path : Option String) (filePattern : Option String) :
    Result SandboxErr String :=
  match st.sandbox with
  | none => .err .notInitialized
  | some _ =>
    let searchPath :=
      match path with
      | some p => resolvePath st p
      | none => st.repoPath.getD "."
    let cmd :=
      match filePattern with
      | some fp =>
        "(rg -n --no-heading -S -g \"" ++ fp ++ "\" \"" ++ pat ++ "\" \"" ++ searchPath ++
          "\" 2>/dev/null || grep -rn --include=\"" ++ fp ++ "\" \"" ++ pat ++ "\" \"" ++
          searchPath ++ "\" 2>/dev/null) || true"
      | none =>
        "(rg -n --no-heading -S \"" ++ pat ++ "\" \"" ++ searchPath ++
          "\" 2>/dev/null || grep -rn \"" ++ pat ++ "\" \"" ++ searchPath ++
          "\" 2>/dev/null) || true"
    match env cmd with
    | .error m => .err (.generic "search files" m)
    | .ok res => .ok (if res.stdout ≠ "" then res.stdout else "No matches found")

/-! ## Command execution (the `runCommand` operation) -/

/-- `runCommand`: an execution that completes returns `ok` with the exit
code as data; a thrown remote error becomes `err` (timeout-flavoured when
the message mentions a timeout). -/
def runCommand (st : SandboxState)
    (env : String → String → Nat → Except String CommandResult)
    (command : String) (timeoutMs : Option Nat) (cwd : Option String) :
    Result SandboxErr CommandResult :=
  match st.sandbox with
  | none => .err .notInitialized
  | some _ =>
    let t := timeoutMs.getD 60000
    let c := cwd.getD (st.repoPath.getD "/home/user")
    match env command c t with
    | .ok r => .ok { stdout := r.stdout, stderr := r.stderr, exitCode := r.exitCode }
    | .error m =>
      if strContains m "timeout" then .err (.timeout "run command" t)
      else .err (.generic "run command" m)

/-! ## Tool-catalogue boundary (`packages/mcp-e2b/src/tools.ts`) -/

inductive ToolContent : Type
  | text (text : String)
  | image (data : String) (mimeType : String)
deriving Repr, DecidableEq

structure ToolResult : Type where
  content : List ToolContent
  isError : Bool
deriving Repr, DecidableEq

def textResult (text : String) (isError : Bool) : ToolResult :=
  { content := [.text text], isError := isError }

/-- The `sandbox_exec` tool handler: seconds-to-milliseconds timeout
conversion, output assembly, and `isError := exitCode !== 0` on a
successful execution. -/
def sandbox_exec (st : SandboxState)
    (env : String → String → Nat → Except String CommandResult)
    (command : String) (timeout : Option Nat) : ToolResult :=
  match runCommand st env command (some ((timeout.getD 60) * 1000)) none with
  | .ok r =>
    let parts : List String :=
      (if strTrim r.stdout ≠ "" then [strTrim r.stdout] else []) ++
      (if strTrim r.stderr ≠ "" then ["[stderr]: " ++ strTrim r.stderr] else [])
    let parts := if parts = [] then ["(no output)"] else parts
    let parts := parts ++ ["[exit: " ++ toString r.exitCode ++ "]"]
    textResult (String.intercalate "\n" parts) (r.exitCode ≠ 0)
  | .err e => textResult ("Command failed: " ++ e.message) true

/-! ## Repository operations (`packages/mcp-e2b/src/sandbox/repo.ts`)

Git operations issue shell commands; for the bisection claims the issued
commands are recorded in a trace, and the environment maps the index of a
call to its outcome. -/

def removeFirstOcc (s pat : String) : String :=
  match findSubstrPos s.data pat.data with
  | none => s
  | some p => String.mk (s.data.take p ++ s.data.drop (p + pat.length))

/-- The authenticated clone URL: the stored token is injected into the host
segment of `https://github.com/` URLs (an empty token is falsy, so skipped). -/
def cloneAuthUrl (cfg : SandboxConfig) (cloneUrl : String) : String :=
  match cfg.githubToken with
  | some token =>
    if token ≠ "" && strStartsWith cloneUrl "https://github.com/" then
      "https://" ++ token ++ "@github.com/" ++ cloneUrl.drop 19
    else cloneUrl
  | none => cloneUrl

/-- `cloneUrl.split("/").pop()?.replace(".git", "") ?? "repo"` and the
derived `/home/user/<name>` path. -/
def cloneRepoPath (cloneUrl : String) : String :=
  "/home/user/" ++
    ((((strSplitOn cloneUrl "/").getLast?).map (fun s => removeFirstOcc s ".git")).getD "repo")

def cloneCmd (cfg : SandboxConfig) (cloneUrl : String) (branch : Option String) : String :=
  match branch with
  | some b => "git clone --branch " ++ b ++ " " ++ cloneAuthUrl cfg cloneUrl ++ " " ++ cloneRepoPath cloneUrl
  | none => "git clone " ++ cloneAuthUrl cfg cloneUrl ++ " " ++ cloneRepoPath cloneUrl

/-- `cloneRepo`: token injection into the URL, deterministic local path from
the repository name, 120s ceiling; on success mutates the session's repo
path (`manager.setRepoPath`). -/
def cloneRepo (st : SandboxState) (cfg : SandboxConfig)
    (env : String → Except String CommandResult)
    (cloneUrl : String) (branch : Option String) :
    Result SandboxErr String × SandboxState :=
  match st.sandbox with
  | none => (.err .notInitialized, st)
  | some _ =>
    let repoPath := cloneRepoPath cloneUrl
    match env (cloneCmd cfg cloneUrl branch) with
    | .ok res =>
      if res.exitCode ≠ 0 then
        (.err (.generic "clone" (if res.stderr ≠ "" then res.stderr else "Clone failed")), st)
      else
        (.ok repoPath, { st with repoPath := some repoPath })
    | .error m =>
      if strContains m "timeout" then (.err (.timeout "clone" 120000), st)
      else (.err (.generic "clone" m), st)

structure GitCommit : Type where
  hash : String
  date : String
  message : String
deriving Repr, DecidableEq

structure CmdTrace : Type where
  issued : List String
  next : Nat
deriving Repr, DecidableEq

def CmdEnv : Type := Nat → Except String CommandResult

/-- Issue one remote command: record it and take its outcome from the
environment. -/
def issueCmd (env : CmdEnv) (tr : CmdTrace) (cmd : String) :
    Except String CommandResult × CmdTrace :=
  (env tr.next, { issued := tr.issued ++ [cmd], next := tr.next + 1 })

def isHexLower (c : Char) : Bool :=
  ('0' ≤ c && c ≤ '9') || ('a' ≤ c && c ≤ 'f')

/-- Leftmost capture of `/\[([a-f0-9]+)\]/`. -/
def bracketHexAt : List Char → Option String
  | '[' :: rest =>
    let run := rest.takeWhile isHexLower
    if run ≠ [] && (rest.dropWhile isHexLower).headD ' ' = ']' then some (String.mk run)
    else none
  | _ => none

def findBracketHex : List Char → Option String
  | [] => none
  | cs@(_ :: rest) =>
    match bracketHexAt cs with
    | some s => some s
    | none => findBracketHex rest

/-- Leftmost capture of `/([a-f0-9]{40}) is the first bad commit/`. -/
def hash40At (cs : List Char) : Option String :=
  let run := cs.take 40
  if run.length = 40 && run.all isHexLower &&
      listStartsWith (cs.drop 40) " is the first bad commit".data then
    some (String.mk run)
  else none

def findHash40 : List Char → Option String
  | [] => none
  | cs@(_ :: rest) =>
    match hash40At cs with
    | some s => some s
    | none => findHash40 rest

/-- `${repoPath}` inside a template literal renders `null` as "null". -/
def repoPathStr (st : SandboxState) : String :=
  st.repoPath.getD "null"

def gitBisectStart (st : SandboxState) (env : CmdEnv) (tr : CmdTrace)
    (badRef goodRef : String) : Result SandboxErr String × CmdTrace :=
  match st.sandbox with
  | none => (.err .notInitialized, tr)
  | some _ =>
    let cmd := "cd \"" ++ repoPathStr st ++ "\" && git bisect start && git bisect bad " ++
      badRef ++ " && git bisect good " ++ goodRef
    let (outcome, tr1) := issueCmd env tr cmd
    match outcome with
    | .error m => (.err (.generic "git bisect start" m), tr1)
    | .ok res =>
      if res.exitCode ≠ 0 && !strContains res.stdout "Bisecting" then
        (.err (.generic "git bisect start" res.stderr), tr1)
      else
        (.ok ((findBracketHex res.stdout.data).getD "unknown"), tr1)

structure MarkOutcome : Type where
  done : Bool
  nextCommit : Option String
  foundCommit : Option GitCommit
deriving Repr, DecidableEq

def gitBisectMark (st : SandboxState) (env : CmdEnv) (tr : CmdTrace) (status : String) :
    Result SandboxErr MarkOutcome × CmdTrace :=
  match st.sandbox with
  | none => (.err .notInitialized, tr)
  | some _ =>
    let cmd := "cd \"" ++ repoPathStr st ++ "\" && git bisect " ++ status
    let (outcome, tr1) := issueCmd env tr cmd
    match outcome with
    | .error m => (.err (.generic "git bisect" m), tr1)
    | .ok res =>
      if strContains res.stdout "is the first bad commit" then
        let hash := (findHash40 res.stdout.data).getD ""
        let logCmd := "cd \"" ++ repoPathStr st ++ "\" && git log -1 --format=\"%H|%aI|%s\" " ++ hash
        let (logOutcome, tr2) := issueCmd env tr1 logCmd
        match logOutcome with
        | .error m => (.err (.generic "git bisect" m), tr2)
        | .ok logRes =>
          if logRes.exitCode = 0 && strTrim logRes.stdout ≠ "" then
            match strSplitOn (strTrim logRes.stdout) "|" with
            | commitHash :: rest2 =>
              let fc : GitCommit :=
                { hash := commitHash, date := rest2.headD "",
                  message := String.intercalate "|" (rest2.drop 1) }
              (.ok { done := true, nextCommit := none, foundCommit := some fc }, tr2)
            | [] =>
              (.ok { done := true, nextCommit := none, foundCommit := none }, tr2)
          else
            (.ok { done := true, nextCommit := none, foundCommit := none }, tr2)
      else
        (.ok { done := false, nextCommit := findBracketHex res.stdout.data,
               foundCommit := none }, tr1)

def gitBisectReset (st : SandboxState) (env : CmdEnv) (tr : CmdTrace) :
    Result SandboxErr Unit × CmdTrace :=
  match st.sandbox with
  | none => (.err .notInitialized, tr)
  | some _ =>
    let cmd := "cd \"" ++ repoPathStr st ++ "\" && git bisect reset"
    let (outcome, tr1) := issueCmd env tr cmd
    match outcome with
    | .error m => (.err (.generic "git bisect reset" m), tr1)
    | .ok res =>
      if res.exitCode ≠ 0 then (.err (.generic "git bisect reset" res.stderr), tr1)
      else (.ok (), tr1)

structure BisectResult : Type where
  found : Bool
  commit : Option GitCommit
  stepsCount : Nat
  log : List String
deriving Repr, DecidableEq

/-- The `while (steps < maxSteps)` loop of `gitBisectRun`, with
`fuel = maxSteps - steps`. A throw from the raw test-command call is the
only exception that reaches the outer `catch`, which resets and returns a
generic error; `gitBisectMark`/`gitBisectReset` catch internally. -/
def bisectLoop (st : SandboxState) (env : CmdEnv) (testCommand : String) (maxSteps : Nat) :
    Nat → Nat → List String → CmdTrace → Result SandboxErr BisectResult × CmdTrace
  | 0, steps, log, tr =>
    let log1 := log ++ ["Max steps (" ++ toString maxSteps ++ ") reached without finding commit"]
    let (_, tr1) := gitBisectReset st env tr
    (.ok { found := false, commit := none, stepsCount := steps, log := log1 }, tr1)
  | fuel + 1, steps, log, tr =>
    let steps1 := steps + 1
    let (testOutcome, tr1) := issueCmd env tr ("cd \"" ++ repoPathStr st ++ "\" && " ++ testCommand)
    match testOutcome with
    | .error m =>
      let (_, tr2) := gitBisectReset st env tr1
      (.err (.generic "git bisect run" m), tr2)
    | .ok testRes =>
      let testPassed := testRes.exitCode == 0
      let log1 := log ++ ["Step " ++ toString steps1 ++ ": Test " ++
        (if testPassed then "passed" else "failed") ++ " (exit: " ++ toString testRes.exitCode ++ ")"]
      let (markRes, tr2) := gitBisectMark st env tr1 (if testPassed then "good" else "bad")
      match markRes with
      | .err e =>
        let (_, tr3) := gitBisectReset st env tr2
        (.err e, tr3)
      | .ok mo =>
        if mo.done then
          let log2 := log1 ++ ["Bisect complete! Found bad commit."]
          let (_, tr3) := gitBisectReset st env tr2
          (.ok { found := true, commit := mo.foundCommit, stepsCount := steps1, log := log2 }, tr3)
        else
          bisectLoop st env testCommand maxSteps fuel steps1
            (log1 ++ ["Next commit: " ++ mo.nextCommit.getD "undefined"]) tr2

/-- `gitBisectRun`: start, loop up to the step ceiling, reset on the loop's
exits — but a failing start returns its error directly. -/
def gitBisectRun (st : SandboxState) (env : CmdEnv) (badRef goodRef testCommand : String)
    (maxStepsOpt : Option Nat) : Result SandboxErr BisectResult × CmdTrace :=
  match st.sandbox with
  | none => (.err .notInitialized, { issued := [], next := 0 })
  | some _ =>
    let maxSteps := maxStepsOpt.getD 20
    let (startRes, tr1) := gitBisectStart st env { issued := [], next := 0 } badRef goodRef
    match startRes with
    | .err e => (.err e, tr1)
    | .ok firstCommit =>
      let log := ["Started bisect: bad=" ++ badRef ++ ", good=" ++ goodRef,
                  "First commit to test: " ++ firstCommit]
      bisectLoop st env testCommand maxSteps maxSteps 0 log tr1

/-- The `git bisect reset` command `gitBisectReset` issues for a session. -/
def resetCmdFor (st : SandboxState) : String :=
  "cd \"" ++ repoPathStr st ++ "\" && git bisect reset"

/-! ## Issue-URL parsing (the GitHub client) -/

inductive GitHubError : Type
  | invalidIssueUrl (url : String)
deriving Repr, DecidableEq

structure ParsedIssueUrl : Type where
  owner : String
  repo : String
  issueNumber : Nat
deriving Repr, DecidableEq

/-- Attempt the tail of `/github\.com\/([^/]+)\/([^/]+)\/issues\/(\d+)/`
at the head of `cs`. The character classes are anchored by the literal `/`
separators, so the greedy captures are the full segments. -/
def tryIssueMatchAt (cs : List Char) : Option (String × String × String) :=
  if listStartsWith cs "github.com/".data then
    let r1 := cs.drop 11
    let owner := r1.takeWhile (fun c => c ≠ '/')
    if owner = [] then none
    else
      match r1.dropWhile (fun c => c ≠ '/') with
      | '/' :: r3 =>
        let repo := r3.takeWhile (fun c => c ≠ '/')
        if repo = [] then none
        else
          let r4 := r3.dropWhile (fun c => c ≠ '/')
          if listStartsWith r4 "/issues/".data then
            let digits := (r4.drop 8).takeWhile isDigit
            if digits = [] then none
            else some (String.mk owner, String.mk repo, String.mk digits)
          else none
      | _ => none
  else none

/-- Leftmost match of the issue-URL regex (no anchors: a match anywhere in
the string succeeds). -/
def findIssueMatch : List Char → Option (String × String × String)
  | [] => none
  | cs@(_ :: rest) =>
    match tryIssueMatchAt cs with
    | some m => some m
    | none => findIssueMatch rest

/-- The exact nonnegative integer a decimal digit run denotes. -/
def parseIntDecExact (s : String) : Nat :=
  s.data.foldl (fun a c => a * 10 + (c.toNat - '0'.toNat)) 0

def bitLenAux : Nat → Nat → Nat
  | 0, _ => 0
  | fuel + 1, n => if n = 0 then 0 else bitLenAux fuel (n / 2) + 1

/-- Number of binary digits of `n` (0 for 0); the fuel `n + 1` dominates
the recursion depth, which halves `n` each step. -/
def bitLen (n : Nat) : Nat :=
  bitLenAux (n + 1) n

/-- Powers of two by doubling (kernel-executable on large exponents). -/
def pow2 : Nat → Nat
  | 0 => 1
  | n + 1 => 2 * pow2 n

theorem pow2_eq_pow (n : Nat) : pow2 n = 2 ^ n := by
  induction n with
  | zero => rfl
  | succ m ih => rw [pow2, ih, pow_succ]; ring

/-- Round a nonnegative integer to the nearest IEEE-754 binary64 value, as
JavaScript number arithmetic does: integers up to `2^53` are exact; larger
ones keep 53 significant bits, ties to even; results reaching `2^1024`
overflow to Infinity (`none`).  A finite double obtained this way is an
integer, hence the `Option Nat` codomain. -/
def roundDouble (v : Nat) : Option Nat :=
  if v ≤ pow2 53 then some v
  else
    let k := bitLen v - 53
    let q := v / pow2 k
    let r := v % pow2 k
    let half := pow2 (k - 1)
    let q1 := if r < half then q else if half < r then q + 1 else if q % 2 = 0 then q else q + 1
    let w := q1 * pow2 k
    if pow2 1024 ≤ w then none else some w

/-- `parseInt(s, 10)` on a non-empty decimal-digit run: the denoted integer
rounded to the double `parseInt` actually returns; `none` models Infinity. -/
def parseIntDec (s : String) : Option Nat :=
  roundDouble (parseIntDecExact s)

/-- `createIssueNumber` from branded.ts: `!Number.isInteger(n) || n <= 0`
throws.  Of the values `parseIssueUrl` feeds it, `Number.isInteger` is
false exactly for the Infinity overflow (`none`), and `n <= 0` is the zero
case (a digit run cannot be negative). -/
def createIssueNumber (n : Option Nat) : Except String Nat :=
  match n with
  | none => .error "Invalid issue number: Infinity"
  | some v => if v = 0 then .error ("Invalid issue number: " ++ toString v) else .ok v

/-- `createRepoOwner` / `createRepoName`: throw on empty or `/`-containing. -/
def createRepoSegment (s : String) : Except String String :=
  if s = "" || strContains s "/" then .error ("Invalid repo segment: " ++ s) else .ok s

/-- `parseIssueUrl` from the GitHub client. -/
def parseIssueUrl (url : String) : Result GitHubError ParsedIssueUrl :=
  match findIssueMatch url.data with
  | none => .err (.invalidIssueUrl url)
  | some (ownerStr, repoStr, numberStr) =>
    if ownerStr = "" || repoStr = "" || numberStr = "" then .err (.invalidIssueUrl url)
    else
      match createRepoSegment ownerStr, createRepoSegment repoStr,
        createIssueNumber (parseIntDec numberStr) with
      | .ok o, .ok r, .ok n => .ok { owner := o, repo := r, issueNumber := n }
      | _, _, _ => .err (.invalidIssueUrl url)

/-! ## Agent run protocol (`packages/agent/src/agent/runner.ts`, `messages.ts`)

The LLM stream is modelled by the list of messages delivered before the
stream ends, plus an optional exception thrown afterwards (an exception
thrown mid-stream is the same model with the undelivered tail absent).
Whether a human-in-the-loop question is pending and unanswered at the
moment of the throw is exogenous (`questionPending`). -/

inductive ContentBlock : Type
  | thinking (thinking : String)
  | text (text : String)
  | tool_use (name : String) (input : Json)
  | other
deriving Repr

inductive SDKMessage : Type
  | system
  | assistant (content : List ContentBlock)
  | user (toolUseResult : Option Json)
  | result (resultText : Option String) (isError : Bool) (totalCostUsd : Nat)
deriving Repr

inductive AgentEvent : Type
  | phase_change (phase : String) (message : String)
  | turn_complete (turn : Nat)
  | tool_call (tool : String) (input : Json)
  | tool_result (tool : String) (success : Bool)
  | thinking (content : String)
  | message (content : String)
  | ask_user (question : String) (context : String)
  | error (error : String)
  | complete (report : AgentReport)
deriving Repr

def AgentEvent.kind : AgentEvent → String
  | .phase_change _ _ => "phase_change"
  | .turn_complete _ => "turn_complete"
  | .tool_call _ _ => "tool_call"
  | .tool_result _ _ => "tool_result"
  | .thinking _ => "thinking"
  | .message _ => "message"
  | .ask_user _ _ => "ask_user"
  | .error _ => "error"
  | .complete _ => "complete"

/-- `isToolResultSuccess` from `messages.ts`: objects (and arrays, which are
`typeof "object"`) are inspected for `isError`/`success`; everything else is
a success. -/
def isToolResultSuccess (result : Json) : Bool :=
  match result with
  | .obj _ | .arr _ =>
    if jhas result "isError" then !jsTruthyOpt (jget result "isError")
    else if jhas result "success" then jsTruthyOpt (jget result "success")
    else true
  | _ => true

/-- `processAssistantMessage`: demultiplex content blocks, in block order. -/
def blockEvents : List ContentBlock → List AgentEvent
  | [] => []
  | b :: bs =>
    (match b with
     | .thinking c => [.thinking c]
     | .text c => [.message c]
     | .tool_use n i => [.tool_call n i]
     | .other => []) ++ blockEvents bs

structure StreamOut : Type where
  events : List AgentEvent
  turnCount : Nat
  finalResult : Option ResultMsg
  totalCost : Nat
deriving Repr

/-- The `for await` loop body of `runAgent`, over the delivered messages:
assistant turns emit `turn_complete` then their block events, tool results
emit `tool_result`, the result message only updates the captured state. -/
def processMessages : List SDKMessage → Nat → Option ResultMsg → Nat → StreamOut
  | [], t, fr, c => { events := [], turnCount := t, finalResult := fr, totalCost := c }
  | .system :: ms, t, fr, c => processMessages ms t fr c
  | .assistant blocks :: ms, t, fr, c =>
    let rest := processMessages ms (t + 1) fr c
    { rest with events := .turn_complete (t + 1) :: blockEvents blocks ++ rest.events }
  | .user (some payload) :: ms, t, fr, c =>
    let rest := processMessages ms t fr c
    { rest with events := .tool_result "unknown" (isToolResultSuccess payload) :: rest.events }
  | .user none :: ms, t, fr, c => processMessages ms t fr c
  | .result rt ie cost :: ms, t, _, _ =>
    processMessages ms t (some { resultText := rt, isError := ie, totalCostUsd := cost }) cost

structure AgentEnv : Type where
  createOutcome : Except String InitData
  now : Nat
  msgs : List SDKMessage
  streamErr : Option String
  questionPending : Bool
  killOutcome : Except String Unit
  hostFn : Nat → Nat → String
  durationMs : Nat

structure RunOutcome : Type where
  events : List AgentEvent
  /-- `some (ok _)` / `some (err _)` are the function's returns; `none`
  models the uncaught `TypeError` `buildReport` can throw after cleanup. -/
  result : Option (Result String AgentReport)
  cleanupRan : Bool
  questionRejected : Bool

/-- `runAgent`. Events appear in source order: the initializing phase
change, optional Playwright notice, exploring phase change, the stream
events, then — via `catch`/`finally` — an `error` event and the completed
phase change, or the completed phase change and the `complete` event. -/
def runAgent (issue : GitHubIssue) (repo : GitHubRepo) (sandboxCfg : SandboxConfig)
    (env : AgentEnv) : RunOutcome :=
  let ev0 : List AgentEvent := [.phase_change "initializing" "Starting sandbox..."]
  let ini := initializeSandbox sandboxCfg emptySession env.createOutcome env.now
  match ini.1 with
  | .err e =>
    { events := ev0 ++ [.error ("Sandbox init failed: " ++ e.message)],
      result := some (.err e.message), cleanupRan := false, questionRejected := false }
  | .ok _ =>
    let st1 := ini.2
    let ev1 := ev0 ++
      (if sandboxCfg.enablePlaywright && hasMcpGateway st1 then
        match st1.mcpUrl, st1.mcpToken with
        | some u, some tok =>
          if u ≠ "" && tok ≠ "" then
            [.phase_change "initializing" ("Playwright MCP at " ++ u)]
          else []
        | _, _ => []
      else [])
    let ev2 := ev1 ++ [.phase_change "exploring" "Analyzing issue..."]
    let so := processMessages env.msgs 0 none 0
    match env.streamErr with
    | some m =>
      let _ := cleanup st1 env.killOutcome
      { events := ev2 ++ so.events ++ [.error m, .phase_change "completed" "Cleaning up..."],
        result := some (.err m), cleanupRan := true,
        questionRejected := env.questionPending }
    | none =>
      let evs := ev2 ++ so.events ++ [.phase_change "completed" "Cleaning up..."]
      let st2 := cleanup st1 env.killOutcome
      let sandboxUrl := getHostUrl st2 env.hostFn 3000
      match buildReport issue repo so.finalResult so.turnCount env.durationMs so.totalCost sandboxUrl with
      | some report =>
        { events := evs ++ [.complete report], result := some (.ok report),
          cleanupRan := true, questionRejected := false }
      | none =>
        { events := evs, result := none, cleanupRan := true, questionRejected := false }

/-! ## Session-state invariant

States reachable through the manager's API keep all other fields null
whenever the sandbox handle is null: the fields are only ever set by
`initializeSandbox` (which sets the handle) and by a successful clone
(which requires the handle), and `cleanup` nulls everything together. -/

/-- A session whose handle is gone has every field null. -/
def SessionInvariant (st : SandboxState) : Prop :=
  st.sandbox = none → st = emptySession

theorem sessionInvariant_empty : SessionInvariant emptySession :=
  fun _ => rfl

theorem sessionInvariant_initializeSandbox (cfg : SandboxConfig) (st : SandboxState)
    (co : Except String InitData) (now : Nat) (h : SessionInvariant st) :
    SessionInvariant (initializeSandbox cfg st co now).2 := by
  unfold initializeSandbox
  cases co with
  | error m => exact h
  | ok d =>
    intro hnone
    by_cases hp : cfg.enablePlaywright <;> simp [hp] at hnone

theorem sessionInvariant_cleanup (st : SandboxState) (k : Except String Unit) (h : SessionInvariant st) :
    SessionInvariant (cleanup st k) := by
  unfold cleanup
  cases hs : st.sandbox with
  | none => simpa [hs] using h
  | some v => intro hnone; rfl

/-- `cloneRepo` either leaves the session untouched or — only with a live
handle — sets exactly the repo-path field. -/
theorem cloneRepo_state (st : SandboxState) (cfg : SandboxConfig)
    (env : String → Except String CommandResult) (url : String) (branch : Option String) :
    (cloneRepo st cfg env url branch).2 = st ∨
    (st.sandbox ≠ none ∧
      ∃ p, (cloneRepo st cfg env url branch).2 = { st with repoPath := some p }) := by
  unfold cloneRepo
  cases hs : st.sandbox with
  | none => exact Or.inl rfl
  | some v =>
    cases henv : env (cloneCmd cfg url branch) with
    | ok res =>
      by_cases hc : res.exitCode ≠ 0
      · exact Or.inl (by simp [henv, hc])
      · exact Or.inr ⟨by simp [hs], cloneRepoPath url, by simp [henv, hc]⟩
    | error m =>
      by_cases ht : strContains m "timeout"
      · exact Or.inl (by simp [henv, ht])
      · exact Or.inl (by simp [henv, ht])

theorem sessionInvariant_cloneRepo (st : SandboxState) (cfg : SandboxConfig)
    (env : String → Except String CommandResult) (url : String) (branch : Option String)
    (h : SessionInvariant st) : SessionInvariant (cloneRepo st cfg env url branch).2 := by
  rcases cloneRepo_state st cfg env url branch with heq | ⟨hsb, p, heq⟩
  · rw [heq]; exact h
  · intro hnone
    rw [heq] at hnone
    simp at hnone
    exact absurd hnone hsb

/-- C5: cleanup never raises (its result ignores the kill outcome), resets
every session field to null, and is idempotent: on any session state of the
manager (states satisfying the reachable-state invariant), one `cleanup`
yields the all-null state, a second `cleanup` yields it again, and the
outcome is the same whether the underlying teardown succeeds or throws. -/
theorem c5_cleanup_idempotent_nonthrowing (st : SandboxState)
    (k k' : Except String Unit) (h : SessionInvariant st) :
    cleanup st k = emptySession ∧
    cleanup (cleanup st k) k' = emptySession ∧
    ∀ k1 k2 : Except String Unit, cleanup st k1 = cleanup st k2 := by
  have hc : cleanup st k = emptySession := by
    unfold cleanup
    cases hs : st.sandbox with
    | none => simpa [hs] using h hs
    | some v => simp [hs]
  refine ⟨hc, ?_, fun k1 k2 => rfl⟩
  rw [hc]
  rfl

/-- Witness for C5 at a concrete initialized session and a throwing kill. -/
theorem c5_cleanup_witness :
    cleanup ⟨some 7, some "/home/user/repo", some 3, none, none⟩ (.error "kill failed") = emptySession ∧
    cleanup (cleanup ⟨some 7, some "/home/user/repo", some 3, none, none⟩ (.error "kill failed")) (.ok ()) = emptySession ∧
    ∀ k1 k2 : Except String Unit,
      cleanup ⟨some 7, some "/home/user/repo", some 3, none, none⟩ k1 =
        cleanup ⟨some 7, some "/home/user/repo", some 3, none, none⟩ k2 :=
  c5_cleanup_idempotent_nonthrowing ⟨some 7, some "/home/user/repo", some 3, none, none⟩
    (.error "kill failed") (.ok ()) (fun hnone => Option.noConfusion hnone)

/-- C6: through `runCommand` on an initialized session, a command that
completes — with any exit code — comes back as `Result.ok` carrying stdout,
stderr and the exit code, while a remote call that throws (could not run)
comes back as `Result.err`. -/
theorem c6_runCommand_exit_code_is_data (st : SandboxState)
    (env : String → String → Nat → Except String CommandResult)
    (command : String) (timeoutMs : Option Nat) (cwd : Option String)
    (hinit : st.sandbox.isSome = true) :
    (∀ r : CommandResult,
       env command (cwd.getD (st.repoPath.getD "/home/user")) (timeoutMs.getD 60000) = .ok r →
       runCommand st env command timeoutMs cwd =
         .ok { stdout := r.stdout, stderr := r.stderr, exitCode := r.exitCode }) ∧
    (∀ m : String,
       env command (cwd.getD (st.repoPath.getD "/home/user")) (timeoutMs.getD 60000) = .error m →
       ∃ e : SandboxErr, runCommand st env command timeoutMs cwd = .err e) := by
  obtain ⟨hdl, hs⟩ := Option.isSome_iff_exists.mp hinit
  constructor
  · intro r henv
    simp [runCommand, hs, henv]
  · intro m henv
    unfold runCommand
    rw [hs]
    simp only [henv]
    split <;> exact ⟨_, rfl⟩

/-- Witness for C6: a completed `exit 2` run is `ok`, a thrown run is `err`. -/
theorem c6_runCommand_witness :
    runCommand ⟨some 1, none, some 0, none, none⟩ (fun _ _ _ => .ok ⟨"out", "warn", 2⟩)
        "false" none none = .ok { stdout := "out", stderr := "warn", exitCode := 2 } ∧
    ∃ e : SandboxErr,
      runCommand ⟨some 1, none, some 0, none, none⟩ (fun _ _ _ => .error "socket closed")
        "true" none none = .err e :=
  ⟨(c6_runCommand_exit_code_is_data ⟨some 1, none, some 0, none, none⟩
      (fun _ _ _ => .ok ⟨"out", "warn", 2⟩) "false" none none rfl).1 ⟨"out", "warn", 2⟩ rfl,
   (c6_runCommand_exit_code_is_data ⟨some 1, none, some 0, none, none⟩
      (fun _ _ _ => .error "socket closed") "true" none none rfl).2 "socket closed" rfl⟩

/-- C9: for each of the five status tags, when the parsed object omits the
variant-specific field, `buildStatusFromParsed` substitutes the documented
default, so the built variant is never missing its extra field. -/
theorem c9_status_variant_defaults (parsed : Json) :
    (jget parsed "status" = some (.str "solved") → jget parsed "fixDescription" = none →
       buildStatusFromParsed parsed = some (.solved (jget parsed "summary") (.str "Fix applied"))) ∧
    (jget parsed "status" = some (.str "already_fixed") → jget parsed "fixingCommit" = none →
       buildStatusFromParsed parsed = some (.already_fixed (jget parsed "summary") (.str "unknown"))) ∧
    (jget parsed "status" = some (.str "partial") → jget parsed "remainingWork" = none →
       buildStatusFromParsed parsed =
         some (.partialStatus (jget parsed "summary") (.str "Additional work needed"))) ∧
    (jget parsed "status" = some (.str "needs_human") → jget parsed "blockers" = none →
       buildStatusFromParsed parsed =
         some (.needs_human (jget parsed "summary") (.arr [.str "Human review required"]))) ∧
    (jget parsed "status" = some (.str "failed") → jget parsed "error" = none →
       buildStatusFromParsed parsed = some (.failed (jget parsed "summary") (.str "Agent failed"))) := by
  refine ⟨?_, ?_, ?_, ?_, ?_⟩ <;>
    · intro h1 h2
      unfold buildStatusFromParsed
      rw [h1]
      simp [nullish, h2]

/-- Witness for C9 on a parsed object with `status: "solved"` and no
`fixDescription`. -/
theorem c9_status_defaults_witness :
    buildStatusFromParsed (.obj [("status", .str "solved"), ("summary", .str "s")]) =
      some (.solved (some (.str "s")) (.str "Fix applied")) :=
  (c9_status_variant_defaults (.obj [("status", .str "solved"), ("summary", .str "s")])).1 rfl rfl

/-- C10: at the tool boundary, when the underlying run-command operation
itself succeeds, the `sandbox_exec` envelope's `isError` flag is true
exactly for a non-zero exit code — even though the operation-layer result
is `ok` either way. -/
theorem c10_exec_envelope_isError (st : SandboxState)
    (env : String → String → Nat → Except String CommandResult)
    (command : String) (timeout : Option Nat) (r : CommandResult)
    (hinit : st.sandbox.isSome = true)
    (henv : env command (st.repoPath.getD "/home/user") ((timeout.getD 60) * 1000) = .ok r) :
    runCommand st env command (some ((timeout.getD 60) * 1000)) none =
      .ok { stdout := r.stdout, stderr := r.stderr, exitCode := r.exitCode } ∧
    (r.exitCode = 0 → (sandbox_exec st env command timeout).isError = false) ∧
    (r.exitCode ≠ 0 → (sandbox_exec st env command timeout).isError = true) := by
  obtain ⟨hdl, hs⟩ := Option.isSome_iff_exists.mp hinit
  have hrun : runCommand st env command (some ((timeout.getD 60) * 1000)) none =
      .ok { stdout := r.stdout, stderr := r.stderr, exitCode := r.exitCode } := by
    simp [runCommand, hs, henv]
  refine ⟨hrun, ?_, ?_⟩ <;>
    · intro hcode
      simp [sandbox_exec, hrun, textResult, hcode]

/-- Witness for C10: exit code 3 yields an error envelope, exit code 0 a
success envelope, both over `ok` operation results. -/
theorem c10_exec_envelope_witness :
    (sandbox_exec ⟨some 1, none, some 0, none, none⟩ (fun _ _ _ => .ok ⟨"", "boom", 3⟩)
      "npm test" none).isError = true ∧
    (sandbox_exec ⟨some 1, none, some 0, none, none⟩ (fun _ _ _ => .ok ⟨"fine", "", 0⟩)
      "npm test" none).isError = false :=
  ⟨(c10_exec_envelope_isError ⟨some 1, none, some 0, none, none⟩
      (fun _ _ _ => .ok ⟨"", "boom", 3⟩) "npm test" none ⟨"", "boom", 3⟩ rfl rfl).2.2 (by decide),
   (c10_exec_envelope_isError ⟨some 1, none, some 0, none, none⟩
      (fun _ _ _ => .ok ⟨"fine", "", 0⟩) "npm test" none ⟨"fine", "", 0⟩ rfl rfl).2.1 rfl⟩

/-! ## C3: repo-path resolution -/

def c3Cfg : SandboxConfig :=
  { apiKey := "k", timeoutMs := 60000, githubToken := none, templateName := none,
    enablePlaywright := false }

/-- A session right after a successful `initialize`, before any clone. -/
def c3Session : SandboxState :=
  (initializeSandbox c3Cfg emptySession (.ok { id := 0, mcpUrl := "", mcpToken := none }) 0).2

def c3ReadEnv : String → Except String String :=
  fun p => .ok ("contents:" ++ p)

/-- Counterexample to C3: on a session that is initialized but has no
cloned repository (repo path still null), reading a relative path does not
fail with "not initialized" — it resolves against the `/home/user` home
fallback, i.e. against something other than the repo path. -/
theorem c3_counterexample :
    c3Session.repoPath = none ∧
    resolvePath c3Session "notes.txt" = "/home/user/notes.txt" ∧
    readFile c3Session c3ReadEnv "notes.txt" = .ok "contents:/home/user/notes.txt" ∧
    readFile c3Session c3ReadEnv "notes.txt" ≠ .err .notInitialized := by
  decide

/-- C3 amended: the repo path is null until a clone succeeds — `initialize`
leaves it untouched, a failed clone leaves it untouched, and only a
successful clone sets it.  Path-relative operations fail with the
distinguished "not initialized" error exactly when the sandbox handle is
absent; a relative path resolves against the repo path when one is set and
against the `/home/user` home fallback when none is. -/
theorem c3_repo_path_resolution (st : SandboxState)
    (renv : String → Except String String)
    (wenv : String → String → Except String Unit)
    (cenv : String → Except String CommandResult)
    (path : String) (content : String) :
    (st.sandbox = none →
       readFile st renv path = .err .notInitialized ∧
       writeFile st wenv path content = .err .notInitialized ∧
       listDirectory st cenv (some path) = .err .notInitialized ∧
       searchFiles st cenv path none none = .err .notInitialized) ∧
    (strStartsWith path "/" = false →
       (∀ rp, st.repoPath = some rp → resolvePath st path = rp ++ "/" ++ path) ∧
       (st.repoPath = none → resolvePath st path = "/home/user/" ++ path)) ∧
    (∀ cfg co now, ((initializeSandbox cfg st co now).2).repoPath = st.repoPath) ∧
    (∀ cfg cenv2 url branch p,
       (cloneRepo st cfg cenv2 url branch).1 = .ok p →
       ((cloneRepo st cfg cenv2 url branch).2).repoPath = some p) ∧
    (∀ cfg cenv2 url branch e,
       (cloneRepo st cfg cenv2 url branch).1 = .err e →
       ((cloneRepo st cfg cenv2 url branch).2).repoPath = st.repoPath) := by
  refine ⟨?_, ?_, ?_, ?_, ?_⟩
  · intro hnone
    refine ⟨?_, ?_, ?_, ?_⟩ <;> simp [readFile, writeFile, listDirectory, searchFiles, hnone]
  · intro habs
    constructor
    · intro rp hrp
      simp [resolvePath, habs, hrp]
    · intro hrp
      simp [resolvePath, habs, hrp]
  · intro cfg co now
    unfold initializeSandbox
    cases co with
    | error m => rfl
    | ok d => by_cases hp : cfg.enablePlaywright <;> simp [hp]
  · intro cfg cenv2 url branch p hok
    unfold cloneRepo at hok ⊢
    cases hs : st.sandbox with
    | none => simp [hs] at hok
    | some v =>
      rw [hs] at hok
      cases henv : cenv2 (cloneCmd cfg url branch) with
      | ok res =>
        rw [henv] at hok
        by_cases hc : res.exitCode ≠ 0
        · simp [hc] at hok
        · simp [hc] at hok ⊢
          rw [hok]
      | error m =>
        rw [henv] at hok
        by_cases ht : strContains m "timeout" <;> simp [ht] at hok
  · intro cfg cenv2 url branch e herr
    unfold cloneRepo at herr ⊢
    cases hs : st.sandbox with
    | none => rfl
    | some v =>
      rw [hs] at herr
      cases henv : cenv2 (cloneCmd cfg url branch) with
      | ok res =>
        rw [henv] at herr
        by_cases hc : res.exitCode ≠ 0
        · simp [hc]
        · simp [hc] at herr
      | error m =>
        by_cases ht : strContains m "timeout" <;> simp [ht]

/-- Witness for C3's amended statement at a cloned session and a bare one. -/
theorem c3_resolution_witness :
    resolvePath ⟨some 1, some "/home/user/repo", some 0, none, none⟩ "src/app.ts" =
      "/home/user/repo/src/app.ts" ∧
    readFile emptySession c3ReadEnv "src/app.ts" = .err .notInitialized :=
  ⟨((c3_repo_path_resolution ⟨some 1, some "/home/user/repo", some 0, none, none⟩ c3ReadEnv
      (fun _ _ => .ok ()) (fun _ => .error "x") "src/app.ts" "").2.1 rfl).1 "/home/user/repo" rfl,
   ((c3_repo_path_resolution emptySession c3ReadEnv
      (fun _ _ => .ok ()) (fun _ => .error "x") "src/app.ts" "").1 rfl).1⟩

/-! ## C4: bisection reset discipline -/

/-- Whatever its outcome, `gitBisectReset` on a live session issues exactly
the reset command. -/
theorem gitBisectReset_trace (st : SandboxState) (env : CmdEnv) (tr : CmdTrace)
    (v : Nat) (hs : st.sandbox = some v) :
    ((gitBisectReset st env tr).2).issued = tr.issued ++ [resetCmdFor st] := by
  unfold gitBisectReset issueCmd resetCmdFor
  rw [hs]
  cases henv : env tr.next with
  | ok res => by_cases hc : res.exitCode ≠ 0 <;> simp [hc]
  | error m => simp

theorem gitBisectReset_last (st : SandboxState) (env : CmdEnv) (tr : CmdTrace)
    (v : Nat) (hs : st.sandbox = some v) :
    ((gitBisectReset st env tr).2).issued.getLast? = some (resetCmdFor st) := by
  rw [gitBisectReset_trace st env tr v hs]
  exact List.getLast?_concat _

/-- Every exit of the bisection loop — found commit, exhausted ceiling,
failed mark, thrown test command — issues the reset command last. -/
theorem bisectLoop_last_is_reset (st : SandboxState) (env : CmdEnv) (tc : String)
    (maxSteps : Nat) (v : Nat) (hs : st.sandbox = some v) :
    ∀ (fuel steps : Nat) (log : List String) (tr : CmdTrace),
      ((bisectLoop st env tc maxSteps fuel steps log tr).2).issued.getLast? =
        some (resetCmdFor st) := by
  intro fuel
  induction fuel with
  | zero =>
    intro steps log tr
    unfold bisectLoop
    exact gitBisectReset_last st env tr v hs
  | succ n ih =>
    intro steps log tr
    unfold bisectLoop
    simp only [issueCmd]
    split
    · exact gitBisectReset_last st env _ v hs
    · split
      · exact gitBisectReset_last st env _ v hs
      · split
        · exact gitBisectReset_last st env _ v hs
        · exact ih _ _ _

def c4State : SandboxState :=
  { sandbox := some 0, repoPath := some "/home/user/repo", startedAt := some 0,
    mcpUrl := none, mcpToken := none }

/-- An environment whose very first command (the combined
`git bisect start && git bisect bad … && git bisect good …`) exits 1 with no
"Bisecting" output — e.g. a bad ref after `git bisect start` already ran. -/
def c4FailEnv : CmdEnv :=
  fun _ => .ok { stdout := "", stderr := "fatal: bad revision", exitCode := 1 }

/-- Counterexample to C4 as stated: when the start step fails, `gitBisectRun`
returns the error without ever issuing `git bisect reset` — the repository
can be left mid-bisection (the combined start command may have executed
`git bisect start` before its failing part). -/
theorem c4_counterexample :
    (gitBisectRun c4State c4FailEnv "HEAD" "v1.0.0" "npm test" none).1 =
      .err (.generic "git bisect start" "fatal: bad revision") ∧
    ((gitBisectRun c4State c4FailEnv "HEAD" "v1.0.0" "npm test" none).2).issued =
      ["cd \"/home/user/repo\" && git bisect start && git bisect bad HEAD && git bisect good v1.0.0"] ∧
    resetCmdFor c4State ∉
      ((gitBisectRun c4State c4FailEnv "HEAD" "v1.0.0" "npm test" none).2).issued := by
  decide

/-- C4 amended: provided the bisect-start step succeeds, every way
`gitBisectRun` can return — first-bad-commit found, step ceiling exhausted,
a mark step failing, or an exception thrown by the test command — issues
`git bisect reset` as the last command before returning, regardless of the
reset's own outcome; only a failed start returns without resetting. -/
theorem c4_reset_on_every_exit_after_start (st : SandboxState) (env : CmdEnv)
    (badRef goodRef testCommand : String) (maxStepsOpt : Option Nat)
    (hstart : (gitBisectStart st env { issued := [], next := 0 } badRef goodRef).1.isOk = true) :
    ((gitBisectRun st env badRef goodRef testCommand maxStepsOpt).2).issued.getLast? =
      some (resetCmdFor st) ∧
    resetCmdFor st ∈ ((gitBisectRun st env badRef goodRef testCommand maxStepsOpt).2).issued := by
  cases hs : st.sandbox with
  | none =>
    exfalso
    unfold gitBisectStart at hstart
    rw [hs] at hstart
    simp [Result.isOk] at hstart
  | some v =>
    have hlast : ((gitBisectRun st env badRef goodRef testCommand maxStepsOpt).2).issued.getLast? =
        some (resetCmdFor st) := by
      unfold gitBisectRun
      rw [hs]
      cases hpair : gitBisectStart st env { issued := [], next := 0 } badRef goodRef with
      | mk startRes tr1 =>
        rw [hpair] at hstart
        cases startRes with
        | err e => simp [Result.isOk] at hstart
        | ok firstCommit => exact bisectLoop_last_is_reset st env testCommand _ v hs _ _ _ _
    refine ⟨hlast, ?_⟩
    obtain ⟨hne, heq⟩ := List.mem_getLast?_eq_getLast (Option.mem_def.mpr hlast)
    rw [heq]
    exact List.getLast_mem hne

/-- Witness for C4's amended statement: a two-step run that finds the bad
commit resets last. -/
def c4FoundEnv : CmdEnv := fun k =>
  if k = 0 then
    .ok { stdout := "Bisecting: 1 revision left [ab12cd] step", stderr := "", exitCode := 0 }
  else if k = 1 then
    .ok { stdout := "test ran", stderr := "", exitCode := 1 }
  else if k = 2 then
    .ok { stdout := "aaaaaaaaaaaaaaaaaaaaaaaaaaaaaaaaaaaaaaaa is the first bad commit", stderr := "", exitCode := 0 }
  else
    .ok { stdout := "", stderr := "", exitCode := 0 }

theorem c4_reset_witness :
    ((gitBisectRun c4State c4FoundEnv "HEAD" "v1.0.0" "npm test" none).2).issued.getLast? =
      some (resetCmdFor c4State) ∧
    resetCmdFor c4State ∈ ((gitBisectRun c4State c4FoundEnv "HEAD" "v1.0.0" "npm test" none).2).issued :=
  c4_reset_on_every_exit_after_start c4State c4FoundEnv "HEAD" "v1.0.0" "npm test" none (by decide)

/-! ## C2: brace-depth counting in the raw-object branch -/

def braceDelta (c : Char) : Int :=
  if c = lbrace then 1 else if c = rbrace then -1 else 0

def braceDepthList (cs : List Char) : Int :=
  (cs.map braceDelta).sum

theorem braceDepthList_nil : braceDepthList [] = 0 := rfl

theorem braceDepthList_cons (c : Char) (l : List Char) :
    braceDepthList (c :: l) = braceDelta c + braceDepthList l := by
  simp [braceDepthList]

theorem braceScan_step (c : Char) (d : Int) :
    (if c = lbrace then d + 1 else if c = rbrace then d - 1 else d) = d + braceDelta c := by
  unfold braceDelta
  split
  · ring
  · split
    · ring
    · ring

/-- The scan stops at the first index where the running brace depth returns
to zero — and nowhere earlier, so a `}` nested inside the object (depth
still positive) never terminates the scan. -/
theorem braceScan_finds_balanced_end :
    ∀ (cs : List Char) (d : Int) (i e : Nat),
      braceScan cs d i = some e →
      ∃ k : Nat, e = i + k + 1 ∧ k + 1 ≤ cs.length ∧
        d + braceDepthList (cs.take (k + 1)) = 0 ∧
        ∀ j : Nat, 0 < j → j ≤ k → d + braceDepthList (cs.take j) ≠ 0 := by
  intro cs
  induction cs with
  | nil => intro d i e h; cases h
  | cons c rest ih =>
    intro d i e h
    unfold braceScan at h
    rw [braceScan_step c d] at h
    by_cases hd : d + braceDelta c = 0
    · rw [if_pos hd] at h
      injection h with he
      refine ⟨0, by omega, by simp, ?_, ?_⟩
      · simpa [List.take_succ_cons, List.take_zero, braceDepthList_cons, braceDepthList_nil]
          using hd
      · intro j hj hjk
        omega
    · rw [if_neg hd] at h
      obtain ⟨k, hek, hklen, hbal, hpref⟩ := ih (d + braceDelta c) (i + 1) e h
      refine ⟨k + 1, by omega, by simpa using Nat.succ_le_succ hklen, ?_, ?_⟩
      · simp only [List.take_succ_cons, braceDepthList_cons]
        omega
      · intro j hj hjk
        cases j with
        | zero => omega
        | succ j' =>
          simp only [List.take_succ_cons, braceDepthList_cons]
          cases Nat.eq_zero_or_pos j' with
          | inl h0 =>
            subst h0
            simp only [List.take_zero, braceDepthList_nil]
            omega
          | inr hpos =>
            have hp := hpref j' hpos (by omega)
            omega

/-- A final-result text with no code fences, whose structured object's
`summary` value contains literal `{` and `}` characters. -/
def c2Text : String :=
  "Final report: \x7b\"status\": \"solved\", \"reproduced\": true, \"summary\": \"replace \x7bold\x7d with \x7bnew\x7d\", \"fixDescription\": \"swap\"\x7d done"

set_option maxRecDepth 40000 in
/-- C2: the raw-object branch locates the object at the first `{` followed
by the status-field pattern (index 14 here), balances braces to find its
true end (index 119, not index 80 where the first `}` sits inside the
summary), and the extracted object parses with the braced summary intact;
truncating at the first closing brace instead would not parse.  In
general, `braceScan` stops exactly where the running depth first returns
to zero, never at a nested closing brace. -/
theorem c2_brace_depth_counting :
    parseStructuredReport c2Text =
      some (.obj [("status", .str "solved"), ("reproduced", .bool true),
        ("summary", .str "replace \x7bold\x7d with \x7bnew\x7d"),
        ("fixDescription", .str "swap")]) ∧
    findRawStart c2Text.data = some 14 ∧
    braceScan (c2Text.data.drop 14) 0 14 = some 119 ∧
    ((c2Text.data.drop 14).takeWhile (fun c => c ≠ rbrace)).length = 65 ∧
    jsonParse (String.mk ((c2Text.data.drop 14).take 66)) = none ∧
    (∀ (cs : List Char) (d : Int) (i e : Nat),
      braceScan cs d i = some e →
      ∃ k : Nat, e = i + k + 1 ∧ k + 1 ≤ cs.length ∧
        d + braceDepthList (cs.take (k + 1)) = 0 ∧
        ∀ j : Nat, 0 < j → j ≤ k → d + braceDepthList (cs.take j) ≠ 0) :=
  ⟨rfl, rfl, rfl, rfl, rfl, braceScan_finds_balanced_end⟩

/-- Witness for C2's general part at the three-character object `{x}`. -/
theorem c2_brace_scan_witness :
    ∃ k : Nat, 3 = 0 + k + 1 ∧ k + 1 ≤ ("\x7bx\x7d".data).length ∧
      (0 : Int) + braceDepthList (("\x7bx\x7d".data).take (k + 1)) = 0 ∧
      ∀ j : Nat, 0 < j → j ≤ k → (0 : Int) + braceDepthList (("\x7bx\x7d".data).take j) ≠ 0 :=
  c2_brace_depth_counting.2.2.2.2.2 "\x7bx\x7d".data 0 0 3 rfl

/-! ## C8: issue-URL parsing -/

theorem mk_data (s : String) : String.mk s.data = s := by
  cases s
  rfl

theorem data_ne_nil_of_ne_empty {s : String} (h : s ≠ "") : s.data ≠ [] := by
  intro hd
  apply h
  cases s with
  | mk d => cases hd; rfl

theorem listStartsWith_nil (l : List Char) : listStartsWith l [] = true := by
  cases l <;> rfl

theorem listStartsWith_append_self (l r : List Char) : listStartsWith (l ++ r) l = true := by
  induction l with
  | nil => simpa using listStartsWith_nil r
  | cons c cs ih => simp [listStartsWith, ih]

theorem takeWhile_append_sep {p : Char → Bool} :
    ∀ (l1 : List Char) (b : Char) (l2 : List Char),
      (∀ a ∈ l1, p a = true) → p b = false →
      (l1 ++ b :: l2).takeWhile p = l1 ∧ (l1 ++ b :: l2).dropWhile p = b :: l2 := by
  intro l1
  induction l1 with
  | nil =>
    intro b l2 _ hb
    simp [List.takeWhile_cons, List.dropWhile_cons, hb]
  | cons c cs ih =>
    intro b l2 h hb
    have hc : p c = true := h c (by simp)
    have hrest := ih b l2 (fun a ha => h a (by simp [ha])) hb
    simp [List.takeWhile_cons, List.dropWhile_cons, hc, hrest.1, hrest.2]

theorem findSubstrPos_singleton_none {a : Char} :
    ∀ (l : List Char), (∀ c ∈ l, c ≠ a) → findSubstrPos l [a] = none := by
  intro l
  induction l with
  | nil => intro _; rfl
  | cons c cs ih =>
    intro h
    unfold findSubstrPos
    have hca : c ≠ a := h c (by simp)
    simp [listStartsWith, hca, ih (fun x hx => h x (by simp [hx]))]

theorem strContains_slash_false {s : String} (h : ∀ c ∈ s.data, c ≠ '/') :
    strContains s "/" = false := by
  unfold strContains
  have hnone : findSubstrPos s.data "/".data = none := findSubstrPos_singleton_none s.data h
  rw [hnone]
  rfl

theorem findIssueMatch_cons_ne (c : Char) (cs : List Char) (h : c ≠ 'g') :
    findIssueMatch (c :: cs) = findIssueMatch cs := by
  have h1 : tryIssueMatchAt (c :: cs) = none := by
    unfold tryIssueMatchAt
    have e : "github.com/".data = 'g' :: "ithub.com/".data := rfl
    have hlsw : listStartsWith (c :: cs) "github.com/".data = false := by
      rw [e]
      unfold listStartsWith
      simp [h]
    rw [hlsw]
    simp
  conv_lhs => unfold findIssueMatch
  rw [h1]

/-- A run of characters none of which is `g` cannot start a match. -/
theorem findIssueMatch_append_ne (pre : List Char) (suf : List Char)
    (h : ∀ c ∈ pre, c ≠ 'g') : findIssueMatch (pre ++ suf) = findIssueMatch suf := by
  induction pre with
  | nil => rfl
  | cons c cs ih =>
    rw [List.cons_append, findIssueMatch_cons_ne c _ (h c (by simp)),
      ih (fun x hx => h x (by simp [hx]))]

/-- The regex tail matches exactly the constructed segments: the character
classes are delimited by the literal `/` separators, so the greedy captures
recover `owner`, `repo` and the digit run verbatim. -/
theorem tryIssueMatchAt_exact (o r ds : String)
    (ho : o ≠ "") (hr : r ≠ "") (hds : ds ≠ "")
    (hoc : ∀ c ∈ o.data, c ≠ '/') (hrc : ∀ c ∈ r.data, c ≠ '/')
    (hdsd : ∀ c ∈ ds.data, isDigit c = true) :
    tryIssueMatchAt
      ("github.com/".data ++ (o.data ++ '/' :: (r.data ++ '/' :: ("issues/".data ++ ds.data)))) =
      some (o, r, ds) := by
  have hdrop : ("github.com/".data ++
      (o.data ++ '/' :: (r.data ++ '/' :: ("issues/".data ++ ds.data)))).drop 11 =
      o.data ++ '/' :: (r.data ++ '/' :: ("issues/".data ++ ds.data)) := by
    have h11 : (11 : Nat) = ("github.com/".data).length := rfl
    rw [h11, List.drop_left]
  have howner := takeWhile_append_sep (p := fun c => decide (c ≠ '/')) o.data '/'
    (r.data ++ '/' :: ("issues/".data ++ ds.data))
    (fun a ha => by simpa using hoc a ha) (by simp)
  have hrepo := takeWhile_append_sep (p := fun c => decide (c ≠ '/')) r.data '/'
    ("issues/".data ++ ds.data)
    (fun a ha => by simpa using hrc a ha) (by simp)
  have hstart2 : listStartsWith ('/' :: ("issues/".data ++ ds.data)) "/issues/".data = true := by
    have e2 : '/' :: ("issues/".data ++ ds.data) = "/issues/".data ++ ds.data := rfl
    rw [e2]
    exact listStartsWith_append_self _ _
  have hdrop8 : ('/' :: ("issues/".data ++ ds.data)).drop 8 = ds.data := by
    have e2 : '/' :: ("issues/".data ++ ds.data) = "/issues/".data ++ ds.data := rfl
    have e3 : (8 : Nat) = ("/issues/".data).length := rfl
    rw [e2, e3, List.drop_left]
  have hdigits : (ds.data).takeWhile isDigit = ds.data :=
    List.takeWhile_eq_self_iff.mpr hdsd
  unfold tryIssueMatchAt
  simp only [listStartsWith_append_self, eq_self_iff_true, if_true, hdrop, howner.1, howner.2,
    hrepo.1, hrepo.2, hstart2, hdrop8, hdigits]
  rw [if_neg (data_ne_nil_of_ne_empty ho), if_neg (data_ne_nil_of_ne_empty hr),
    if_neg (data_ne_nil_of_ne_empty hds), mk_data, mk_data, mk_data]

theorem findIssueMatch_gh (Z : List Char) (m : String × String × String)
    (hmatch : tryIssueMatchAt ("github.com/".data ++ Z) = some m) :
    findIssueMatch ("github.com/".data ++ Z) = some m := by
  have e : "github.com/".data ++ Z = 'g' :: ("ithub.com/".data ++ Z) := rfl
  rw [e] at hmatch ⊢
  conv_lhs => unfold findIssueMatch
  rw [hmatch]

/-- Leftmost matching over the whole well-formed URL: the eight characters
of `https://` cannot start a match, and the match at `github.com/` is the
exact segment split. -/
theorem findIssueMatch_wellFormed (o r ds : String)
    (ho : o ≠ "") (hr : r ≠ "") (hds : ds ≠ "")
    (hoc : ∀ c ∈ o.data, c ≠ '/') (hrc : ∀ c ∈ r.data, c ≠ '/')
    (hdsd : ∀ c ∈ ds.data, isDigit c = true) :
    findIssueMatch ("https://github.com/" ++ o ++ "/" ++ r ++ "/issues/" ++ ds).data =
      some (o, r, ds) := by
  have hdata : ("https://github.com/" ++ o ++ "/" ++ r ++ "/issues/" ++ ds).data =
      "https://".data ++
        ("github.com/".data ++ (o.data ++ '/' :: (r.data ++ '/' :: ("issues/".data ++ ds.data)))) := by
    simp only [String.data_append]
    simp [List.append_assoc]
  rw [hdata, findIssueMatch_append_ne "https://".data _ (by decide)]
  exact findIssueMatch_gh _ (o, r, ds) (tryIssueMatchAt_exact o r ds ho hr hds hoc hrc hdsd)

set_option maxRecDepth 200000 in
/-- Counterexample to C8 as stated: the program parses the digit run with
JavaScript `parseInt`, which computes a double.  For `n = 2^53 + 1 =
9007199254740993` the nearest double is `9007199254740992`, so parsing
succeeds but the returned issue number differs from the URL's `n` segment;
and for a 310-digit run the double overflows to Infinity, `Number.isInteger`
fails, and the well-formed URL is rejected with `InvalidIssueUrlError`. -/
theorem c8_rounding_counterexample :
    parseIssueUrl "https://github.com/bxxf/auto-issue-resolver/issues/9007199254740993" =
      .ok { owner := "bxxf", repo := "auto-issue-resolver", issueNumber := 9007199254740992 } ∧
    (9007199254740992 : Nat) ≠ 9007199254740993 ∧
    parseIssueUrl ("https://github.com/bxxf/auto-issue-resolver/issues/1" ++
        String.mk (List.replicate 309 '0')) =
      .err (.invalidIssueUrl ("https://github.com/bxxf/auto-issue-resolver/issues/1" ++
        String.mk (List.replicate 309 '0'))) := by
  refine ⟨by decide, by decide, by decide⟩

/-- C8 amended: a well-formed URL `github.com/{owner}/{repo}/issues/{n}`
(owner and repo non-empty and slash-free, `n` a positive digit run whose
value is at most `2^53`, so the double `parseInt` computes is exact) parses
to exactly its segments; a URL the pattern does not match at all, or whose
digit run denotes zero or overflows to Infinity, yields
`InvalidIssueUrlError`.  For larger `n` the returned number is the nearest
double, which can differ from the `n` segment. -/
theorem c8_parse_issue_url_double_semantics :
    (∀ (o r ds : String), o ≠ "" → r ≠ "" → ds ≠ "" →
      (∀ c ∈ o.data, c ≠ '/') → (∀ c ∈ r.data, c ≠ '/') →
      (∀ c ∈ ds.data, isDigit c = true) →
      parseIntDecExact ds ≠ 0 → parseIntDecExact ds ≤ pow2 53 →
      parseIssueUrl ("https://github.com/" ++ o ++ "/" ++ r ++ "/issues/" ++ ds) =
        .ok { owner := o, repo := r, issueNumber := parseIntDecExact ds }) ∧
    (∀ url : String, findIssueMatch url.data = none →
      parseIssueUrl url = .err (.invalidIssueUrl url)) ∧
    (∀ (url : String) (o r ds : String),
      findIssueMatch url.data = some (o, r, ds) → parseIntDecExact ds = 0 →
      parseIssueUrl url = .err (.invalidIssueUrl url)) ∧
    (∀ (url : String) (o r ds : String),
      findIssueMatch url.data = some (o, r, ds) → parseIntDec ds = none →
      parseIssueUrl url = .err (.invalidIssueUrl url)) := by
  refine ⟨?_, ?_, ?_, ?_⟩
  · intro o r ds ho hr hds hoc hrc hdsd hpos hle
    unfold parseIssueUrl
    rw [findIssueMatch_wellFormed o r ds ho hr hds hoc hrc hdsd]
    have hco : createRepoSegment o = .ok o := by
      unfold createRepoSegment
      simp [ho, strContains_slash_false hoc]
    have hcr : createRepoSegment r = .ok r := by
      unfold createRepoSegment
      simp [hr, strContains_slash_false hrc]
    have hpd : parseIntDec ds = some (parseIntDecExact ds) := by
      unfold parseIntDec roundDouble
      rw [if_pos hle]
    have hcn : createIssueNumber (parseIntDec ds) = .ok (parseIntDecExact ds) := by
      rw [hpd]
      unfold createIssueNumber
      simp [hpos]
    simp [hco, hcr, hcn, ho, hr, hds]
  · intro url h
    unfold parseIssueUrl
    rw [h]
  · intro url o r ds h h0
    unfold parseIssueUrl
    rw [h]
    by_cases hcond : (o = "" || r = "" || ds = "") = true
    · simp [hcond]
    · rw [Bool.not_eq_true] at hcond
      have hpd : parseIntDec ds = some 0 := by
        unfold parseIntDec roundDouble
        rw [h0, if_pos (Nat.zero_le _)]
      have hcn : createIssueNumber (parseIntDec ds) =
          .error ("Invalid issue number: " ++ toString (0 : Nat)) := by
        rw [hpd]
        unfold createIssueNumber
        simp
      cases createRepoSegment o <;> cases createRepoSegment r <;> simp [hcond, hcn]
  · intro url o r ds h hinf
    unfold parseIssueUrl
    rw [h]
    by_cases hcond : (o = "" || r = "" || ds = "") = true
    · simp [hcond]
    · rw [Bool.not_eq_true] at hcond
      have hcn : createIssueNumber (parseIntDec ds) = .error "Invalid issue number: Infinity" := by
        rw [hinf]
        rfl
      cases createRepoSegment o <;> cases createRepoSegment r <;> simp [hcond, hcn]

set_option maxRecDepth 200000 in
/-- Witness for C8's amended statement on a concrete URL (42 ≤ 2^53). -/
theorem c8_parse_issue_url_witness :
    parseIssueUrl "https://github.com/bxxf/auto-issue-resolver/issues/42" =
      .ok { owner := "bxxf", repo := "auto-issue-resolver", issueNumber := 42 } := by
  have happ : "https://github.com/bxxf/auto-issue-resolver/issues/42" =
      "https://github.com/" ++ "bxxf" ++ "/" ++ "auto-issue-resolver" ++ "/issues/" ++ "42" := by
    decide
  rw [happ]
  have h := c8_parse_issue_url_double_semantics.1 "bxxf" "auto-issue-resolver" "42"
    (by decide) (by decide) (by decide) (by decide) (by decide) (by decide) (by decide) (by decide)
  rw [h]
  rfl

/-! ## C1 and C7: the run protocol's event stream -/

/-- Stream processing is a homomorphism over message concatenation: the
events of `xs ++ ys` are the events of `xs` followed by the events of `ys`
processed from the state `xs` left behind — no reordering, no batching. -/
theorem processMessages_append (xs ys : List SDKMessage) (t : Nat) (fr : Option ResultMsg) (c : Nat) :
    (processMessages (xs ++ ys) t fr c).events =
      (processMessages xs t fr c).events ++
        (processMessages ys (processMessages xs t fr c).turnCount
          (processMessages xs t fr c).finalResult (processMessages xs t fr c).totalCost).events := by
  induction xs generalizing t fr c with
  | nil => rfl
  | cons m ms ih =>
    cases m with
    | system => simpa using ih t fr c
    | assistant blocks => simp [processMessages, ih]
    | user tur =>
      cases tur with
      | some p => simp [processMessages, ih]
      | none => simpa [processMessages] using ih t fr c
    | result rt ie cost => simpa [processMessages] using ih t _ cost

/-- A successful run's last event is `complete` carrying the returned
report. -/
theorem runAgent_ok_last (issue : GitHubIssue) (repo : GitHubRepo) (cfg : SandboxConfig)
    (env : AgentEnv) (r : AgentReport)
    (h : (runAgent issue repo cfg env).result = some (.ok r)) :
    (runAgent issue repo cfg env).events.getLast? = some (.complete r) := by
  simp only [runAgent] at h ⊢
  cases hini : (initializeSandbox cfg emptySession env.createOutcome env.now).1 with
  | err e => simp [hini] at h
  | ok info =>
    cases hse : env.streamErr with
    | some m => simp [hini, hse] at h
    | none =>
      cases hbr : buildReport issue repo (processMessages env.msgs 0 none 0).finalResult
          (processMessages env.msgs 0 none 0).turnCount env.durationMs
          (processMessages env.msgs 0 none 0).totalCost
          (getHostUrl (cleanup (initializeSandbox cfg emptySession env.createOutcome env.now).2
            env.killOutcome) env.hostFn 3000) with
      | none => simp [hini, hse, hbr] at h
      | some report =>
        simp only [hini, hse, hbr] at h ⊢
        simp at h
        subst h
        exact List.getLast?_concat _

def simStream : List SDKMessage :=
  [.assistant [.thinking "inspecting the issue", .tool_use "sandbox_exec" (.obj [])],
   .user (some (.obj [("isError", .bool false)])),
   .assistant [.text "All done"],
   .result (some "All done") false 0]

def simCfg : SandboxConfig :=
  { apiKey := "k", timeoutMs := 60000, githubToken := none, templateName := none,
    enablePlaywright := false }

def simIssue : GitHubIssue := { number := 1 }

def simRepo : GitHubRepo := { owner := "bxxf", name := "auto-issue-resolver" }

def simEnv : AgentEnv :=
  { createOutcome := .ok { id := 1, mcpUrl := "", mcpToken := none },
    now := 0, msgs := simStream, streamErr := none, questionPending := false,
    killOutcome := .ok (), hostFn := fun _ _ => "host", durationMs := 42 }

set_option maxRecDepth 40000 in
/-- C1: for the simulated stream [assistant(thinking, tool_use),
user(tool_result), assistant(text), result], the run emits exactly
phase_change, phase_change, turn_complete, thinking, tool_call,
tool_result, turn_complete, message, phase_change, complete — so the
claimed sequence [phase_change, turn_complete, thinking, tool_call,
tool_result, turn_complete, message, complete] occurs in that relative
order; stream processing preserves per-message cause order (append
homomorphism); and `complete` is the last event of every successful run. -/
theorem c1_event_stream_order :
    ((runAgent simIssue simRepo simCfg simEnv).events.map AgentEvent.kind =
      ["phase_change", "phase_change", "turn_complete", "thinking", "tool_call",
       "tool_result", "turn_complete", "message", "phase_change", "complete"]) ∧
    (["phase_change", "turn_complete", "thinking", "tool_call", "tool_result",
      "turn_complete", "message", "complete"].Sublist
      ((runAgent simIssue simRepo simCfg simEnv).events.map AgentEvent.kind)) ∧
    (∀ (xs ys : List SDKMessage) (t : Nat) (fr : Option ResultMsg) (c : Nat),
      (processMessages (xs ++ ys) t fr c).events =
        (processMessages xs t fr c).events ++
          (processMessages ys (processMessages xs t fr c).turnCount
            (processMessages xs t fr c).finalResult (processMessages xs t fr c).totalCost).events) ∧
    (∀ (issue : GitHubIssue) (repo : GitHubRepo) (cfg : SandboxConfig) (env : AgentEnv)
        (r : AgentReport),
      (runAgent issue repo cfg env).result = some (.ok r) →
      (runAgent issue repo cfg env).events.getLast? = some (.complete r)) := by
  refine ⟨rfl, ?_, processMessages_append, runAgent_ok_last⟩
  rw [show (runAgent simIssue simRepo simCfg simEnv).events.map AgentEvent.kind =
    ["phase_change", "phase_change", "turn_complete", "thinking", "tool_call",
     "tool_result", "turn_complete", "message", "phase_change", "complete"] from rfl]
  decide

set_option maxRecDepth 40000 in
/-- Witness for C1's universal part at the simulated run. -/
theorem c1_complete_last_witness :
    ∃ r : AgentReport,
      (runAgent simIssue simRepo simCfg simEnv).events.getLast? = some (.complete r) := by
  obtain ⟨r, hr⟩ : ∃ r, (runAgent simIssue simRepo simCfg simEnv).result = some (Result.ok r) :=
    ⟨_, rfl⟩
  exact ⟨r, c1_event_stream_order.2.2.2 simIssue simRepo simCfg simEnv r hr⟩

/-- C7: when the stream throws, the run rejects a pending unanswered
human-in-the-loop question, emits an `error` event, still runs the cleanup
path (`finally`), and returns `err` — never an `ok` report. -/
theorem c7_stream_exception_handling (issue : GitHubIssue) (repo : GitHubRepo)
    (cfg : SandboxConfig) (env : AgentEnv) (m : String)
    (hse : env.streamErr = some m)
    (hinit : ((initializeSandbox cfg emptySession env.createOutcome env.now).1).isOk = true) :
    (runAgent issue repo cfg env).questionRejected = env.questionPending ∧
    AgentEvent.error m ∈ (runAgent issue repo cfg env).events ∧
    (runAgent issue repo cfg env).cleanupRan = true ∧
    ∀ r : AgentReport, (runAgent issue repo cfg env).result ≠ some (.ok r) := by
  simp only [runAgent]
  cases hini : (initializeSandbox cfg emptySession env.createOutcome env.now).1 with
  | err e =>
    rw [hini] at hinit
    simp [Result.isOk] at hinit
  | ok info =>
    rw [hse]
    refine ⟨rfl, ?_, rfl, ?_⟩
    · simp
    · intro r hcontra
      simp at hcontra

def c7Env : AgentEnv :=
  { createOutcome := .ok { id := 1, mcpUrl := "", mcpToken := none },
    now := 0, msgs := [.assistant [.tool_use "sandbox_exec" (.obj [])]],
    streamErr := some "stream exploded", questionPending := true,
    killOutcome := .ok (), hostFn := fun _ _ => "host", durationMs := 7 }

/-- Witness for C7: a run with a pending question and a thrown stream. -/
theorem c7_stream_exception_witness :
    (runAgent simIssue simRepo simCfg c7Env).questionRejected = true ∧
    AgentEvent.error "stream exploded" ∈ (runAgent simIssue simRepo simCfg c7Env).events ∧
    (runAgent simIssue simRepo simCfg c7Env).cleanupRan = true ∧
    ∀ r : AgentReport, (runAgent simIssue simRepo simCfg c7Env).result ≠ some (.ok r) :=
  c7_stream_exception_handling simIssue simRepo simCfg c7Env "stream exploded" rfl rfl

end AIR
